import Mathlib

/-!
Shallow embedding of the NEO close-approach program: the entity model
(`models.py`), the linker/database (`database.py`), the predicate filters and
the stream limiter (`filters.py`), together with proofs of the spec's
testable properties.

Python floats are modelled as `PyFloat` (a rational or the NaN sentinel),
Python `None`-able attributes as `Option`, exceptions as `Except String`,
and object references from a `CloseApproach` to its `NearEarthObject` as an
index into the database's object list.
-/

namespace Neo

/-- Comparison operators used by the filters: `operator.eq`, `operator.ge`,
`operator.le`. -/
inductive Cmp
  | eq
  | ge
  | le
deriving DecidableEq, Repr

/-- A Python float: either NaN (the unknown-diameter sentinel) or a rational
value. -/
inductive PyFloat
  | nan
  | val (q : ℚ)
deriving DecidableEq, Repr, Inhabited

/-- Comparison on Python floats: every comparison with NaN is false. -/
def cmpFloat : Cmp → PyFloat → PyFloat → Bool
  | _, .nan, _ => false
  | _, _, .nan => false
  | .eq, .val a, .val b => decide (a = b)
  | .ge, .val a, .val b => decide (b ≤ a)
  | .le, .val a, .val b => decide (a ≤ b)

/-- Comparison on dates (modelled as integer day ordinals). -/
def cmpInt : Cmp → Int → Int → Bool
  | .eq, a, b => decide (a = b)
  | .ge, a, b => decide (b ≤ a)
  | .le, a, b => decide (a ≤ b)

def boolToNat (b : Bool) : Nat := if b then 1 else 0

/-- Comparison of a possibly-`None` hazardous attribute with a boolean
reference value, following Python: `None == b` is `False`; ordered
comparisons against `None` raise `TypeError`; booleans compare as integers. -/
def cmpOptBool : Cmp → Option Bool → Bool → Except String Bool
  | .eq, o, b => .ok (o == some b)
  | _, none, _ => .error "TypeError: comparison not supported between NoneType and bool"
  | .ge, some x, b => .ok (decide (boolToNat b ≤ boolToNat x))
  | .le, some x, b => .ok (decide (boolToNat x ≤ boolToNat b))

/-- A datetime: a day ordinal plus a time of day; `.date()` strips the time
of day, keeping `day`. -/
structure PyDateTime where
  day : Int
  minuteOfDay : Nat
deriving DecidableEq, Repr, Inhabited

/-- A near-Earth object (`models.NearEarthObject`). `approaches` holds
indices into the database's approach list, populated by the linker. -/
structure NearEarthObject where
  designation : String
  name : Option String
  diameter : PyFloat
  hazardous : Option Bool
  approaches : List Nat
deriving DecidableEq, Repr, Inhabited

/-- A close approach (`models.CloseApproach`). `neo` is the reference to the
linked object, as an index into the database's object list; `none` models a
Python `None` reference. -/
structure CloseApproach where
  designation : String
  time : Option PyDateTime
  distance : PyFloat
  velocity : PyFloat
  neo : Option Nat
deriving DecidableEq, Repr, Inhabited

/-- Python `str` applied to an optional string: `str(None)` is `"None"`. -/
def pyStr : Option String → String
  | some s => s
  | none => "None"

/-- Python `float(x)` with the constructor's `except` fallback: an absent
value raises `TypeError` and falls back to the given default. -/
def floatOrDefault (d : PyFloat) : Option PyFloat → PyFloat
  | some x => x
  | none => d

/-- The `NearEarthObject` constructor (`models.py`): `designation` is
`str(info.get("designation"))`; `name` and `hazardous` are stored exactly as
retrieved (absent key gives `None`); `diameter` falls back to NaN when
`float` fails on an absent value; `approaches` starts empty. -/
def neoInit (designation : Option String) (name : Option String)
    (diameter : Option PyFloat) (hazardous : Option Bool) : NearEarthObject :=
  ⟨pyStr designation, name, floatOrDefault PyFloat.nan diameter, hazardous, []⟩

/-- Python truthiness of an optional string: `None` and `""` are falsy. -/
def pyTruthyStr : Option String → Bool
  | none => false
  | some s => !(s == "")

/-- The `fullname` property: `designation (name)` when the name is truthy,
otherwise just the designation. -/
def fullname (o : NearEarthObject) : String :=
  if pyTruthyStr o.name then o.designation ++ " (" ++ o.name.getD "" ++ ")"
  else o.designation

/-- The `CloseApproach` constructor (`models.py`): `time` is `none` when the
timestamp is missing or unparseable; `distance` and `velocity` fall back to
`0.0`; `neo` is stored as retrieved (possibly `None`). -/
def caInit (pdes : Option String) (time : Option PyDateTime)
    (distance : Option PyFloat) (velocity : Option PyFloat)
    (neoRef : Option Nat) : CloseApproach :=
  ⟨pyStr pdes, time, floatOrDefault (PyFloat.val 0) distance,
    floatOrDefault (PyFloat.val 0) velocity, neoRef⟩

/-- The closed family of filters (`filters.py`): each subclass of
`AttributeFilter` becomes a constructor carrying its comparator and
reference value. -/
inductive AttributeFilter
  | dateFilter (op : Cmp) (value : Int)
  | distanceFilter (op : Cmp) (value : PyFloat)
  | velocityFilter (op : Cmp) (value : PyFloat)
  | diameterFilter (op : Cmp) (value : PyFloat)
  | hazardFilter (op : Cmp) (value : Bool)
deriving DecidableEq, Repr

/-- Evaluate one filter on an approach: `op (get approach) value`, where the
`get` of the date filter dereferences `approach.time` and the `get` of the
diameter and hazard filters dereferences `approach.neo`; dereferencing
`None` raises `AttributeError`. -/
def evalFilter (neos : List NearEarthObject) (f : AttributeFilter)
    (a : CloseApproach) : Except String Bool :=
  match f with
  | .dateFilter op v =>
    match a.time with
    | none => .error "AttributeError: NoneType object has no attribute date"
    | some t => .ok (cmpInt op t.day v)
  | .distanceFilter op v => .ok (cmpFloat op a.distance v)
  | .velocityFilter op v => .ok (cmpFloat op a.velocity v)
  | .diameterFilter op v =>
    match a.neo with
    | none => .error "AttributeError: NoneType object has no attribute diameter"
    | some j =>
      match neos[j]? with
      | none => .error "invalid object reference"
      | some o => .ok (cmpFloat op o.diameter v)
  | .hazardFilter op v =>
    match a.neo with
    | none => .error "AttributeError: NoneType object has no attribute hazardous"
    | some j =>
      match neos[j]? with
      | none => .error "invalid object reference"
      | some o => cmpOptBool op o.hazardous v

/-- Conjoin a filter list on one approach, as `all(map(lambda f: f(a), fs))`
does: short-circuits on the first false, propagates the first raised
exception. -/
def evalFilters (neos : List NearEarthObject) :
    List AttributeFilter → CloseApproach → Except String Bool
  | [], _ => .ok true
  | f :: fs, a =>
    match evalFilter neos f a with
    | .error e => .error e
    | .ok b => if b then evalFilters neos fs a else .ok false

/-- Boolean view of a successful all-filters evaluation: true exactly when
every filter evaluated without error and the conjunction is true. -/
def passesAll (neos : List NearEarthObject) (fs : List AttributeFilter)
    (a : CloseApproach) : Bool :=
  match evalFilters neos fs a with
  | .ok b => b
  | .error _ => false

/-- The database (`database.NEODatabase`): the object collection (mutated by
the linker) and the approach collection. -/
structure NEODatabase where
  neos : List NearEarthObject
  approaches : List CloseApproach
deriving Repr

/-- `o.approaches.append(i)`. -/
def appendApproach (o : NearEarthObject) (i : Nat) : NearEarthObject :=
  ⟨o.designation, o.name, o.diameter, o.hazardous, o.approaches ++ [i]⟩

/-- An object with a whole list appended to its approaches. -/
def appendAll (o : NearEarthObject) (l : List Nat) : NearEarthObject :=
  ⟨o.designation, o.name, o.diameter, o.hazardous, o.approaches ++ l⟩

/-- One iteration of the constructor's linking loop,
`values.neo.approaches.append(values)`: raises `AttributeError` when the
approach's `neo` reference is `None`; a reference outside the collection
mutates an external object, leaving this collection unchanged. -/
def linkStep (neos : List NearEarthObject) (i : Nat) (a : CloseApproach) :
    Except String (List NearEarthObject) :=
  match a.neo with
  | none => .error "AttributeError: NoneType object has no attribute approaches"
  | some j =>
    match neos[j]? with
    | none => .ok neos
    | some o => .ok (neos.set j (appendApproach o i))

/-- The constructor's linking loop over the approaches, threading the
approach index. -/
def linkAll (neos : List NearEarthObject) (start : Nat) :
    List CloseApproach → Except String (List NearEarthObject)
  | [] => .ok neos
  | a :: rest =>
    match linkStep neos start a with
    | .error e => .error e
    | .ok neos2 => linkAll neos2 (start + 1) rest

/-- `NEODatabase.__init__`: store both collections and run the linking loop
(which raises on the first approach whose `neo` is `None`). -/
def makeNEODatabase (neos : List NearEarthObject)
    (approaches : List CloseApproach) : Except String NEODatabase :=
  match linkAll neos 0 approaches with
  | .error e => .error e
  | .ok neos2 => .ok ⟨neos2, approaches⟩

/-- `NEODatabase.get_neo_by_name`: first object whose `name` attribute
equals the query (Python `==`, so `None == None` matches), else `None`. -/
def get_neo_by_name (db : NEODatabase) (name : Option String) :
    Option NearEarthObject :=
  db.neos.find? (fun neo => neo.name == name)

/-- The filtered branch of `NEODatabase.query`: walk the stored approaches
in order, yield those passing all filters, propagate the first evaluation
error. -/
def queryList (neos : List NearEarthObject) (fs : List AttributeFilter) :
    List CloseApproach → Except String (List CloseApproach)
  | [] => .ok []
  | a :: rest =>
    match evalFilters neos fs a with
    | .error e => .error e
    | .ok b =>
      match queryList neos fs rest with
      | .error e => .error e
      | .ok tail => .ok (if b then a :: tail else tail)

/-- `NEODatabase.query`, consumed to completion: with a falsy (empty) filter
collection, yield every stored approach without evaluating anything. -/
def query (db : NEODatabase) (fs : List AttributeFilter) :
    Except String (List CloseApproach) :=
  if fs.isEmpty then .ok db.approaches
  else queryList db.neos fs db.approaches

/-- Python truthiness of an optional float criterion: `None` and `0.0` are
falsy; NaN is truthy. -/
def pyTruthyFloatOpt : Option PyFloat → Bool
  | none => false
  | some .nan => true
  | some (.val q) => !(decide (q = 0))

/-- Python truthiness of an optional bool: only `True` is truthy. -/
def pyTruthyBoolOpt : Option Bool → Bool
  | some true => true
  | _ => false

/-- `filters.create_filters`: appends one filter per truthy criterion, in
source order; note that every guard is a plain truthiness test (`if date:`,
`if hazardous:`, and so on). -/
def create_filters (date start_date end_date : Option Int)
    (distance_min distance_max velocity_min velocity_max : Option PyFloat)
    (diameter_min diameter_max : Option PyFloat)
    (hazardous : Option Bool) : List AttributeFilter :=
  (match date with
   | some d => [AttributeFilter.dateFilter Cmp.eq d]
   | none => []) ++
  (match start_date with
   | some d => [AttributeFilter.dateFilter Cmp.ge d]
   | none => []) ++
  (match end_date with
   | some d => [AttributeFilter.dateFilter Cmp.le d]
   | none => []) ++
  (if pyTruthyFloatOpt distance_min then
    [AttributeFilter.distanceFilter Cmp.ge (distance_min.getD PyFloat.nan)]
   else []) ++
  (if pyTruthyFloatOpt distance_max then
    [AttributeFilter.distanceFilter Cmp.le (distance_max.getD PyFloat.nan)]
   else []) ++
  (if pyTruthyFloatOpt velocity_min then
    [AttributeFilter.velocityFilter Cmp.ge (velocity_min.getD PyFloat.nan)]
   else []) ++
  (if pyTruthyFloatOpt velocity_max then
    [AttributeFilter.velocityFilter Cmp.le (velocity_max.getD PyFloat.nan)]
   else []) ++
  (if pyTruthyFloatOpt diameter_min then
    [AttributeFilter.diameterFilter Cmp.ge (diameter_min.getD PyFloat.nan)]
   else []) ++
  (if pyTruthyFloatOpt diameter_max then
    [AttributeFilter.diameterFilter Cmp.le (diameter_max.getD PyFloat.nan)]
   else []) ++
  (if pyTruthyBoolOpt hazardous then
    [AttributeFilter.hazardFilter Cmp.eq (hazardous.getD false)]
   else [])

/-- `filters.limit`, consumed to completion: a truthy `n` takes the first
`n` elements (a negative `n` makes `range(0, n)` empty); `n` equal to `0` or
`None` yields the whole sequence. -/
def limit {α : Type} (xs : List α) (n : Option Int) : List α :=
  match n with
  | none => xs
  | some m => if m = 0 then xs else xs.take m.toNat

/-- The indices (from `start`) of the approaches in the list whose `neo`
reference is `j` — the contents the linking loop appends to object `j`. -/
def linkedApproachIdxs (j : Nat) : Nat → List CloseApproach → List Nat
  | _, [] => []
  | start, a :: rest =>
    (if a.neo = some j then [start] else []) ++
      linkedApproachIdxs j (start + 1) rest

/-- `extract.load_neos`'s designation dictionary followed by
`pdes_dict.get`: the index of the last object with the given designation
(later insertions overwrite), or `None`. -/
def pdesLookup (neos : List NearEarthObject) (d : String) : Option Nat :=
  neos.enum.foldl
    (fun acc p => if p.2.designation == d then some p.1 else acc) none

/-! Concrete datasets used by the counterexample and witness theorems. -/

/-- An object with a designation and a hazardous flag. -/
def demoNeo (d : String) (h : Bool) : NearEarthObject :=
  ⟨d, none, PyFloat.val 1, some h, []⟩

/-- Five objects, two of them hazardous. -/
def demoNeos : List NearEarthObject :=
  [demoNeo "A" true, demoNeo "B" true, demoNeo "C" false,
    demoNeo "D" false, demoNeo "E" false]

/-- An approach linked to object index `j`. -/
def demoApproach (d : String) (j : Nat) : CloseApproach :=
  ⟨d, some ⟨0, 0⟩, PyFloat.val 1, PyFloat.val 1, some j⟩

/-- One approach per demo object. -/
def demoApproaches : List CloseApproach :=
  [demoApproach "A" 0, demoApproach "B" 1, demoApproach "C" 2,
    demoApproach "D" 3, demoApproach "E" 4]

/-- The five-object demo database. -/
def demoDB : NEODatabase := ⟨demoNeos, demoApproaches⟩

/-- A single object with designation `A`. -/
def lonelyNeo : NearEarthObject := neoInit (some "A") none none (some false)

/-- An approach whose designation `B` matches no object, so the loader's
dictionary lookup leaves its `neo` reference `None`. -/
def orphanApproach : CloseApproach :=
  caInit (some "B") none none none (pdesLookup [lonelyNeo] "B")

/-- An object whose optional name is absent (`None`). -/
def unnamedNeo : NearEarthObject := neoInit (some "X1") none none (some false)

/-- An object whose name is the empty string. -/
def emptyNamedNeo : NearEarthObject := ⟨"X2", some "", PyFloat.nan, some false, []⟩

/-- A database holding one unnamed object and one empty-string-named
object. -/
def nameDB : NEODatabase := ⟨[unnamedNeo, emptyNamedNeo], []⟩

/-! Claim theorems. -/

/-- C1: the claim says `create_filters` with `hazardous=False` returns a
collection containing a hazardous-equality filter, so that querying with it
yields exactly the non-hazardous objects' approaches. The code's
`if hazardous:` guard drops the `False` criterion: the returned collection
is empty, the query yields all five approaches of a five-object dataset with
two hazardous objects, whereas an actual hazardous-equality filter with
value `False` would keep only three — contradicting the function's own
docstring, which says `hazardous=False` is not to be confused with
`hazardous=None`. -/
theorem c1_hazardous_false_dropped :
  create_filters none none none none none none none none none (some false)
      = [] ∧
  query demoDB
      (create_filters none none none none none none none none none
        (some false)) = .ok demoDB.approaches ∧
  demoDB.approaches.length = 5 ∧
  (demoDB.neos.filter (fun o => o.hazardous == some true)).length = 2 ∧
  (demoDB.approaches.filter
      (passesAll demoDB.neos [AttributeFilter.hazardFilter Cmp.eq false])).length
    = 3 :=
  ⟨rfl, rfl, rfl, rfl, rfl⟩

/-- C2: the claim says construction never fails on an approach whose
foreign-key designation matches no object, leaving its reference null. In
the code the unresolved reference is indeed `None` (the loader's dictionary
lookup misses), but the constructor's linking loop then evaluates
`values.neo.approaches.append(values)` and raises `AttributeError` instead
of completing — construction fails. -/
theorem c2_unmatched_designation_crashes :
  pdesLookup [lonelyNeo] "B" = none ∧
  orphanApproach.neo = none ∧
  makeNEODatabase [lonelyNeo] [orphanApproach] =
    .error "AttributeError: NoneType object has no attribute approaches" :=
  ⟨rfl, rfl, rfl⟩

/-- C3: the claim says `get_neo_by_name` with `None` or the empty string
always returns not-found, regardless of dataset contents. The code performs
a plain equality scan with no guard, so on a dataset containing an object
whose name is `None` (or the empty string) the query returns that object. -/
theorem c3_get_by_name_none_matches :
  get_neo_by_name nameDB none = some unnamedNeo ∧
  get_neo_by_name nameDB (some "") = some emptyNamedNeo :=
  ⟨rfl, rfl⟩

/-- Evaluating a filter list succeeds with `true` exactly when every single
filter evaluates to `.ok true` (the short-circuit conjunction law). -/
theorem evalFilters_ok_true_iff (neos : List NearEarthObject)
    (fs : List AttributeFilter) (a : CloseApproach) :
    evalFilters neos fs a = .ok true ↔
      ∀ f ∈ fs, evalFilter neos f a = .ok true := by
  induction fs with
  | nil => simp [evalFilters]
  | cons f fs ih =>
    simp only [evalFilters]
    cases h : evalFilter neos f a with
    | error e => simp [h]
    | ok b =>
      cases b with
      | false => simp [h]
      | true => simp [h, ih]

/-- The boolean view agrees with a successful evaluation. -/
theorem passesAll_of_ok (neos : List NearEarthObject)
    (fs : List AttributeFilter) (a : CloseApproach) (b : Bool)
    (h : evalFilters neos fs a = .ok b) : passesAll neos fs a = b := by
  unfold passesAll
  rw [h]

/-- The boolean view is true exactly when evaluation succeeds with true. -/
theorem passesAll_eq_true_iff (neos : List NearEarthObject)
    (fs : List AttributeFilter) (a : CloseApproach) :
    passesAll neos fs a = true ↔ evalFilters neos fs a = .ok true := by
  unfold passesAll
  cases h : evalFilters neos fs a with
  | error e => simp
  | ok b => cases b <;> simp

/-- A successful filtered query is exactly the filter of the stored
approaches by the all-filters predicate. -/
theorem queryList_ok_filter (neos : List NearEarthObject)
    (fs : List AttributeFilter) (apps : List CloseApproach) :
    ∀ (res : List CloseApproach),
      queryList neos fs apps = .ok res →
      res = apps.filter (passesAll neos fs) := by
  induction apps with
  | nil =>
    intro res h
    simp only [queryList, Except.ok.injEq] at h
    simp [← h]
  | cons a rest ih =>
    intro res h
    simp only [queryList] at h
    cases he : evalFilters neos fs a with
    | error e => rw [he] at h; exact absurd h (by simp)
    | ok b =>
      rw [he] at h
      cases ht : queryList neos fs rest with
      | error e => rw [ht] at h; exact absurd h (by simp)
      | ok tail =>
        rw [ht] at h
        simp only [Except.ok.injEq] at h
        have htail := ih tail ht
        have hp := passesAll_of_ok neos fs a b he
        cases b with
        | false =>
          rw [List.filter_cons_of_neg (by simp [hp])]
          simp at h
          rw [← h, htail]
        | true =>
          rw [List.filter_cons_of_pos hp]
          simp at h
          rw [← h, htail]

/-- C4: a successful query yields exactly the stored approaches for which
every filter evaluates true, in storage order with no duplicates or
omissions; the empty filter list yields the full collection (identity law);
and any query result is a subsequence of the unfiltered query. -/
theorem c4_query_conjunction (db : NEODatabase) (fs : List AttributeFilter)
    (res : List CloseApproach) (h : query db fs = .ok res) :
  res = db.approaches.filter (passesAll db.neos fs) ∧
  List.Sublist res db.approaches ∧
  query db [] = .ok db.approaches ∧
  ∀ a, passesAll db.neos fs a = true ↔
    ∀ f ∈ fs, evalFilter db.neos f a = .ok true := by
  have hres : res = db.approaches.filter (passesAll db.neos fs) := by
    by_cases hfs : fs = []
    · subst hfs
      simp only [query, List.isEmpty_nil, if_true, Except.ok.injEq] at h
      rw [← h]
      refine (List.filter_eq_self.mpr ?_).symm
      intro a _
      rfl
    · have hne : fs.isEmpty = false := by
        cases fs with
        | nil => exact absurd rfl hfs
        | cons f fs2 => rfl
      unfold query at h
      rw [hne] at h
      simp only [Bool.false_eq_true, if_false] at h
      exact queryList_ok_filter db.neos fs db.approaches res h
  refine ⟨hres, ?_, ?_, ?_⟩
  · rw [hres]
    exact List.filter_sublist db.approaches
  · simp [query]
  · intro a
    rw [passesAll_eq_true_iff]
    exact evalFilters_ok_true_iff db.neos fs a

/-- An approach carrying only a distance, for the C4 witness. -/
def distApproach (d : String) (q : ℚ) : CloseApproach :=
  ⟨d, none, PyFloat.val q, PyFloat.val 1, none⟩

/-- Three approaches at distances 5, 20 and 50 (hundredths of an au). -/
def distDB : NEODatabase :=
  ⟨[], [distApproach "P1" 5, distApproach "P2" 20, distApproach "P3" 50]⟩

/-- A maximum-distance filter at 20. -/
def distFs : List AttributeFilter :=
  [AttributeFilter.distanceFilter Cmp.le (PyFloat.val 20)]

/-- C4 witness: on the three-approach dataset, the distance-at-most-20
query succeeds and satisfies the conjunction, subsequence and identity
laws. -/
theorem c4_query_conjunction_witness :
  [distApproach "P1" 5, distApproach "P2" 20]
      = distDB.approaches.filter (passesAll distDB.neos distFs) ∧
  List.Sublist [distApproach "P1" 5, distApproach "P2" 20]
      distDB.approaches ∧
  query distDB [] = .ok distDB.approaches ∧
  ∀ a, passesAll distDB.neos distFs a = true ↔
    ∀ f ∈ distFs, evalFilter distDB.neos f a = .ok true :=
  c4_query_conjunction distDB distFs
    [distApproach "P1" 5, distApproach "P2" 20] (by rfl)

/-- When some stored approach makes the filter conjunction raise, the query
raises as well instead of swallowing the failure or skipping the
approach. -/
theorem queryList_error_of_mem (neos : List NearEarthObject)
    (fs : List AttributeFilter) (apps : List CloseApproach) :
    ∀ (a : CloseApproach) (e : String), a ∈ apps →
      evalFilters neos fs a = .error e →
      ∃ e2, queryList neos fs apps = .error e2 := by
  induction apps with
  | nil =>
    intro a e ha _
    exact absurd ha (List.not_mem_nil a)
  | cons b rest ih =>
    intro a e ha he
    rcases List.mem_cons.mp ha with h1 | h2
    · subst h1
      exact ⟨e, by simp [queryList, he]⟩
    · cases hb : evalFilters neos fs b with
      | error e2 => exact ⟨e2, by simp [queryList, hb]⟩
      | ok bb =>
        rcases ih a e h2 he with ⟨e2, h3⟩
        exact ⟨e2, by simp [queryList, hb, h3]⟩

/-- C7: on an approach whose object reference is null, the diameter and
hazard filters fail with an attribute error naming the missing attribute
rather than returning a boolean, and the query generator propagates any
such evaluation failure to its caller instead of swallowing it or skipping
the approach. -/
theorem c7_missing_neo_propagates (neos : List NearEarthObject)
    (a : CloseApproach) (opD opH : Cmp) (vD : PyFloat) (vH : Bool)
    (ha : a.neo = none) :
  evalFilter neos (AttributeFilter.diameterFilter opD vD) a =
    .error "AttributeError: NoneType object has no attribute diameter" ∧
  evalFilter neos (AttributeFilter.hazardFilter opH vH) a =
    .error "AttributeError: NoneType object has no attribute hazardous" ∧
  ∀ (db : NEODatabase) (fs : List AttributeFilter) (e : String)
      (a2 : CloseApproach), a2 ∈ db.approaches →
    evalFilters db.neos fs a2 = .error e →
    ∃ e2, query db fs = .error e2 := by
  refine ⟨by simp [evalFilter, ha], by simp [evalFilter, ha], ?_⟩
  intro db fs e a2 hmem herr
  cases fs with
  | nil => simp [evalFilters] at herr
  | cons f fs2 =>
    rcases queryList_error_of_mem db.neos (f :: fs2) db.approaches a2 e
      hmem herr with ⟨e2, h3⟩
    exact ⟨e2, by simp [query, h3]⟩

/-- An approach with a null object reference, for the C7 witness. -/
def c7App : CloseApproach := ⟨"Z", none, PyFloat.val 0, PyFloat.val 0, none⟩

/-- C7 witness: on the concrete unlinked approach, both filters error and
the propagation law holds. -/
theorem c7_missing_neo_propagates_witness :
  evalFilter [] (AttributeFilter.diameterFilter Cmp.le (PyFloat.val 1)) c7App =
    .error "AttributeError: NoneType object has no attribute diameter" ∧
  evalFilter [] (AttributeFilter.hazardFilter Cmp.eq false) c7App =
    .error "AttributeError: NoneType object has no attribute hazardous" ∧
  ∀ (db : NEODatabase) (fs : List AttributeFilter) (e : String)
      (a2 : CloseApproach), a2 ∈ db.approaches →
    evalFilters db.neos fs a2 = .error e →
    ∃ e2, query db fs = .error e2 :=
  c7_missing_neo_propagates [] c7App Cmp.le Cmp.eq (PyFloat.val 1) false rfl

/-- C5: the limit helper yields exactly the first `min n (length xs)`
elements when `n` is a positive integer, and the whole sequence when `n` is
zero or absent. -/
theorem c5_limit_first_min (α : Type) (xs : List α) (n : Int) (hn : 0 < n) :
  limit xs (some n) = xs.take n.toNat ∧
  (limit xs (some n)).length = min n.toNat xs.length ∧
  limit xs (some 0) = xs ∧
  limit xs none = xs := by
  have hne : ¬ n = 0 := by omega
  refine ⟨?_, ?_, rfl, rfl⟩
  · simp [limit, hne]
  · simp [limit, hne, List.length_take]

/-- C5 witness: limiting a sequence of length five to three yields exactly
the first three elements; zero or absent yields all five. -/
theorem c5_limit_first_min_witness :
  limit [1, 2, 3, 4, 5] (some (3 : Int)) = [1, 2, 3, 4, 5].take (Int.toNat 3) ∧
  (limit [1, 2, 3, 4, 5] (some (3 : Int))).length
    = min (Int.toNat 3) ([1, 2, 3, 4, 5] : List Nat).length ∧
  limit [1, 2, 3, 4, 5] (some (0 : Int)) = [1, 2, 3, 4, 5] ∧
  limit ([1, 2, 3, 4, 5] : List Nat) none = [1, 2, 3, 4, 5] :=
  c5_limit_first_min Nat [1, 2, 3, 4, 5] 3 (by decide)

/-- C8 counterexample: the claim says an object constructed with the
hazardous field absent has hazardous equal to the boolean `False`; in the
code `info.get("hazardous")` returns `None` for an absent key, so the
attribute is `None`, not `False`. -/
theorem c8_hazardous_absent_counterexample :
  ¬ (neoInit (some "X") none none none).hazardous = some false := by
  decide

/-- C8 amended: for every object constructed with the hazardous field
absent, the hazardous attribute is the absent value `None` (falsy, hence
displayed as non-hazardous), not the boolean `False`. -/
theorem c8_hazardous_absent_is_none (d n : Option String)
    (di : Option PyFloat) :
  (neoInit d n di none).hazardous = none := rfl

/-- C9 counterexample: the claim says a constructed object's name is never
the empty string; the constructor stores `info.get("name")` unnormalized,
so an empty-string name input yields an object whose name is the empty
string. -/
theorem c9_empty_name_counterexample :
  (neoInit (some "X") (some "") none none).name = some "" := rfl

/-- C9 amended: the constructor stores the name input as given (the empty
string is preserved, not normalized to the absent value — normalization
happens in the loader, outside the constructor); an object constructed with
`name=None` and `diameter=None` has an absent name, a NaN diameter, and its
display form is only the designation, as is the display form of an
empty-string-named object. -/
theorem c9_name_stored_as_given (d : Option String) :
  (neoInit d (some "") none none).name = some "" ∧
  (neoInit d none none none).name = none ∧
  (neoInit d none none none).diameter = PyFloat.nan ∧
  fullname (neoInit d none none none) = pyStr d ∧
  fullname (neoInit d (some "") none none) = pyStr d := by
  refine ⟨rfl, rfl, rfl, rfl, ?_⟩
  simp [fullname, neoInit, pyTruthyStr]

/-- C10: evaluating a date filter on an approach whose time is null (which
the constructor permits for unparseable timestamps) raises an attribute
error instead of returning a boolean, while on an approach with a non-null
time it returns the boolean comparison of the stripped date. -/
theorem c10_date_filter_null_time (neos : List NearEarthObject) (op : Cmp)
    (v : Int) (a a2 : CloseApproach) (t : PyDateTime)
    (pd : Option String) (di ve : Option PyFloat) (nr : Option Nat)
    (ht : a.time = none) (ht2 : a2.time = some t) :
  evalFilter neos (AttributeFilter.dateFilter op v) a =
    .error "AttributeError: NoneType object has no attribute date" ∧
  evalFilter neos (AttributeFilter.dateFilter op v) a2 =
    .ok (cmpInt op t.day v) ∧
  (caInit pd none di ve nr).time = none := by
  refine ⟨?_, ?_, rfl⟩
  · simp [evalFilter, ht]
  · simp [evalFilter, ht2]

/-- C10 witness: a concrete approach with a null time makes the date filter
error, and a concrete approach with a time yields a boolean. -/
theorem c10_date_filter_null_time_witness :
  evalFilter [] (AttributeFilter.dateFilter Cmp.eq 5)
      (caInit (some "P") none none none none) =
    .error "AttributeError: NoneType object has no attribute date" ∧
  evalFilter [] (AttributeFilter.dateFilter Cmp.eq 5)
      (CloseApproach.mk "Q" (some ⟨5, 0⟩) (PyFloat.val 0) (PyFloat.val 0) none)
    = .ok (cmpInt Cmp.eq (5 : Int) 5) ∧
  (caInit (some "P") none none none none).time = none :=
  c10_date_filter_null_time [] Cmp.eq 5
    (caInit (some "P") none none none none)
    (CloseApproach.mk "Q" (some ⟨5, 0⟩) (PyFloat.val 0) (PyFloat.val 0) none)
    ⟨5, 0⟩ (some "P") none none none rfl rfl

/-- Appending nothing changes nothing. -/
theorem appendAll_nil (o : NearEarthObject) : appendAll o [] = o := by
  cases o
  simp [appendAll]

/-- Appending twice appends the concatenation. -/
theorem appendAll_append (o : NearEarthObject) (l1 l2 : List Nat) :
    appendAll (appendAll o l1) l2 = appendAll o (l1 ++ l2) := by
  cases o
  simp [appendAll]

/-- A single append is an `appendAll` of a singleton. -/
theorem appendApproach_eq (o : NearEarthObject) (i : Nat) :
    appendApproach o i = appendAll o [i] := rfl

/-- A successful linking step preserves the collection's length. -/
theorem linkStep_ok_length (neos neos2 : List NearEarthObject) (i : Nat)
    (a : CloseApproach) (h : linkStep neos i a = .ok neos2) :
    neos2.length = neos.length := by
  cases ha : a.neo with
  | none =>
    simp only [linkStep, ha] at h
    exact absurd h (by simp)
  | some j =>
    simp only [linkStep, ha] at h
    cases hg : neos[j]? with
    | none =>
      simp only [hg, Except.ok.injEq] at h
      rw [← h]
    | some o =>
      simp only [hg, Except.ok.injEq] at h
      rw [← h, List.length_set]

/-- A successful linking loop preserves the collection's length. -/
theorem linkAll_ok_length (apps : List CloseApproach) :
    ∀ (neos neos2 : List NearEarthObject) (start : Nat),
      linkAll neos start apps = .ok neos2 → neos2.length = neos.length := by
  induction apps with
  | nil =>
    intro neos neos2 start h
    simp only [linkAll, Except.ok.injEq] at h
    rw [← h]
  | cons a rest ih =>
    intro neos neos2 start h
    simp only [linkAll] at h
    cases hs : linkStep neos start a with
    | error e => rw [hs] at h; exact absurd h (by simp)
    | ok mid =>
      rw [hs] at h
      have h1 := ih mid neos2 (start + 1) h
      have h2 := linkStep_ok_length neos mid start a hs
      omega

/-- One successful linking step appends the new index to the referenced
object and leaves every other object unchanged. -/
theorem linkStep_ok_getElem (neos neos2 : List NearEarthObject) (i : Nat)
    (a : CloseApproach) (j0 : Nat) (h : linkStep neos i a = .ok neos2)
    (ha : a.neo = some j0) (j : Nat) (o : NearEarthObject)
    (hj : neos[j]? = some o) :
    neos2[j]? = some (appendAll o (if a.neo = some j then [i] else [])) := by
  simp only [linkStep, ha] at h
  by_cases hjj : j0 = j
  · subst hjj
    simp only [hj, Except.ok.injEq] at h
    have hlt : j0 < neos.length := (List.getElem?_eq_some.mp hj).1
    rw [← h, ha, if_pos rfl, List.getElem?_set_self hlt, appendApproach_eq]
  · have hne : ¬ a.neo = some j := by
      rw [ha]
      intro hc
      exact hjj (Option.some.inj hc)
    rw [if_neg hne, appendAll_nil]
    cases hg : neos[j0]? with
    | none =>
      simp only [hg, Except.ok.injEq] at h
      rw [← h, hj]
    | some o0 =>
      simp only [hg, Except.ok.injEq] at h
      rw [← h, List.getElem?_set_ne hjj, hj]

/-- A successful linking loop appends to each object exactly the indices of
the approaches that reference it, in order. -/
theorem linkAll_ok_getElem (apps : List CloseApproach) :
    ∀ (neos neos2 : List NearEarthObject) (start : Nat),
      linkAll neos start apps = .ok neos2 →
      ∀ (j : Nat) (o : NearEarthObject), neos[j]? = some o →
        neos2[j]? = some (appendAll o (linkedApproachIdxs j start apps)) := by
  induction apps with
  | nil =>
    intro neos neos2 start h j o hj
    simp only [linkAll, Except.ok.injEq] at h
    rw [← h, hj]
    simp only [linkedApproachIdxs]
    rw [appendAll_nil]
  | cons a rest ih =>
    intro neos neos2 start h j o hj
    simp only [linkAll] at h
    cases hs : linkStep neos start a with
    | error e => rw [hs] at h; exact absurd h (by simp)
    | ok mid =>
      rw [hs] at h
      have hasome : ∃ j0, a.neo = some j0 := by
        cases ha : a.neo with
        | none =>
          simp only [linkStep, ha] at hs
          exact absurd hs (by simp)
        | some j0 => exact ⟨j0, rfl⟩
      rcases hasome with ⟨j0, ha⟩
      have hmid := linkStep_ok_getElem neos mid start a j0 hs ha j o hj
      have hrec := ih mid neos2 (start + 1) h j
        (appendAll o (if a.neo = some j then [start] else [])) hmid
      rw [hrec, appendAll_append]
      simp only [linkedApproachIdxs]

/-- Membership in the reference-index list: `i` is listed for object `j`
exactly when approach `i - start` references object `j`. -/
theorem mem_linkedApproachIdxs (j : Nat) (apps : List CloseApproach) :
    ∀ (start i : Nat),
      i ∈ linkedApproachIdxs j start apps ↔
        ∃ (k : Nat) (a : CloseApproach), apps[k]? = some a ∧
          i = start + k ∧ a.neo = some j := by
  induction apps with
  | nil =>
    intro start i
    simp [linkedApproachIdxs]
  | cons a rest ih =>
    intro start i
    simp only [linkedApproachIdxs, List.mem_append]
    constructor
    · intro h
      rcases h with h1 | h2
      · by_cases hc : a.neo = some j
        · rw [if_pos hc] at h1
          simp only [List.mem_singleton] at h1
          exact ⟨0, a, List.getElem?_cons_zero, by omega, hc⟩
        · rw [if_neg hc] at h1
          exact absurd h1 (List.not_mem_nil i)
      · rcases (ih (start + 1) i).mp h2 with ⟨k, a2, hk, hi, hn⟩
        refine ⟨k + 1, a2, ?_, by omega, hn⟩
        simpa using hk
    · rintro ⟨k, a2, hk, hi, hn⟩
      cases k with
      | zero =>
        rw [List.getElem?_cons_zero] at hk
        have ha2 : a = a2 := Option.some.inj hk
        left
        rw [← ha2] at hn
        rw [if_pos hn]
        simp only [List.mem_singleton]
        omega
      | succ k2 =>
        right
        refine (ih (start + 1) i).mpr ⟨k2, a2, ?_, by omega, hn⟩
        simpa using hk

/-- Every listed reference index is at least the starting index. -/
theorem linkedApproachIdxs_le (j : Nat) (apps : List CloseApproach)
    (start i : Nat) (h : i ∈ linkedApproachIdxs j start apps) : start ≤ i := by
  rcases (mem_linkedApproachIdxs j apps start i).mp h with ⟨k, a, _, hi, _⟩
  omega

/-- The reference-index list is strictly increasing: approaches are listed
in the order they were linked. -/
theorem linkedApproachIdxs_pairwise (j : Nat) (apps : List CloseApproach) :
    ∀ start : Nat,
      (linkedApproachIdxs j start apps).Pairwise (fun x y => x < y) := by
  induction apps with
  | nil =>
    intro start
    simp [linkedApproachIdxs]
  | cons a rest ih =>
    intro start
    simp only [linkedApproachIdxs]
    by_cases hc : a.neo = some j
    · rw [if_pos hc, List.singleton_append, List.pairwise_cons]
      refine ⟨?_, ih (start + 1)⟩
      intro i hi
      have := linkedApproachIdxs_le j rest (start + 1) i hi
      omega
    · rw [if_neg hc]
      simpa using ih (start + 1)

/-- C6: in a successfully linked database built from objects with empty
approach collections, an approach references object `j` if and only if its
index is in that object's approach collection (bijective bidirectional
linking), and each object's collection lists its approaches in the order
they were linked (strictly increasing input indices). -/
theorem c6_bijective_linking (neos : List NearEarthObject)
    (apps : List CloseApproach) (db : NEODatabase)
    (hok : makeNEODatabase neos apps = .ok db)
    (hpre : ∀ o ∈ neos, o.approaches = []) :
  db.approaches = apps ∧
  ∀ (j : Nat) (o : NearEarthObject), db.neos[j]? = some o →
    (∀ (i : Nat) (a : CloseApproach), apps[i]? = some a →
      (a.neo = some j ↔ i ∈ o.approaches)) ∧
    o.approaches.Pairwise (fun x y => x < y) := by
  cases hl : linkAll neos 0 apps with
  | error e =>
    simp only [makeNEODatabase, hl] at hok
    exact absurd hok (by simp)
  | ok neos2 =>
    simp only [makeNEODatabase, hl, Except.ok.injEq] at hok
    have hdbn : db.neos = neos2 := by rw [← hok]
    have hdba : db.approaches = apps := by rw [← hok]
    refine ⟨hdba, ?_⟩
    intro j o hj
    rw [hdbn] at hj
    have hlen := linkAll_ok_length apps neos neos2 0 hl
    have hjlt2 : j < neos2.length := (List.getElem?_eq_some.mp hj).1
    have hjlt : j < neos.length := by omega
    have ho0 : neos[j]? = some neos[j] := List.getElem?_eq_getElem hjlt
    have hout := linkAll_ok_getElem apps neos neos2 0 hl j neos[j] ho0
    rw [hj] at hout
    simp only [Option.some.injEq] at hout
    have hO0 : (neos[j]).approaches = [] :=
      hpre neos[j] (List.getElem?_mem ho0)
    have happ : o.approaches = linkedApproachIdxs j 0 apps := by
      rw [hout]
      simp [appendAll, hO0]
    refine ⟨?_, ?_⟩
    · intro i a hia
      rw [happ, mem_linkedApproachIdxs]
      constructor
      · intro hn
        exact ⟨i, a, hia, by omega, hn⟩
      · rintro ⟨k, a2, hk, hi, hn⟩
        have hki : k = i := by omega
        subst hki
        rw [hia] at hk
        have ha2 : a = a2 := Option.some.inj hk
        rw [ha2]
        exact hn
    · rw [happ]
      exact linkedApproachIdxs_pairwise j apps 0

/-- An object with empty approaches, for the C6 witness. -/
def wNeo (d : String) : NearEarthObject := ⟨d, none, PyFloat.nan, some false, []⟩

/-- An approach referencing object index `j`, for the C6 witness. -/
def wApp (j : Nat) : CloseApproach :=
  ⟨"W", none, PyFloat.val 0, PyFloat.val 0, some j⟩

/-- Two unlinked objects. -/
def wNeos : List NearEarthObject := [wNeo "A", wNeo "B"]

/-- Three approaches: two referencing the first object, one the second. -/
def wApps : List CloseApproach := [wApp 0, wApp 1, wApp 0]

/-- The linked result: the first object gets indices 0 and 2, the second
gets index 1. -/
def wDB : NEODatabase :=
  ⟨[⟨"A", none, PyFloat.nan, some false, [0, 2]⟩,
    ⟨"B", none, PyFloat.nan, some false, [1]⟩], wApps⟩

/-- C6 witness: on the two-object, three-approach dataset, construction
succeeds and the bijective-linking conclusion holds. -/
theorem c6_bijective_linking_witness :
  wDB.approaches = wApps ∧
  ∀ (j : Nat) (o : NearEarthObject), wDB.neos[j]? = some o →
    (∀ (i : Nat) (a : CloseApproach), wApps[i]? = some a →
      (a.neo = some j ↔ i ∈ o.approaches)) ∧
    o.approaches.Pairwise (fun x y => x < y) :=
  c6_bijective_linking wNeos wApps wDB (by rfl) (by decide)

end Neo
